import Mathlib

set_option maxHeartbeats 1000000
set_option maxRecDepth 100000

/-!
Shallow embedding of the study-session server (src/unnamed/part_002): the
in-memory session registry, the websocket connection and event handlers,
and the empty-grace cleanup scheduler, together with the configuration
constants of CONFIG.  Pure data is modelled directly; the mutable maps
`sessions` and `userSessions` become a Registry record threaded through the
handlers; socket emissions become an explicit list of Emit values.
-/

/-- Configuration constant CONFIG.MAX_MESSAGE_LENGTH. -/
def MAX_MESSAGE_LENGTH : Nat := 500

/-- Configuration constant CONFIG.MAX_USERNAME_LENGTH. -/
def MAX_USERNAME_LENGTH : Nat := 30

/-- Configuration constant CONFIG.MAX_MEMBERS_PER_SESSION. -/
def MAX_MEMBERS_PER_SESSION : Nat := 50

/-- Configuration constant CONFIG.SESSION_CLEANUP_GRACE_PERIOD (5 min in ms). -/
def SESSION_CLEANUP_GRACE_PERIOD : Nat := 300000

/-- Session status: the string field status with values
    active, host-left and ended. -/
inductive Status where
  | active
  | hostLeft
  | ended
deriving DecidableEq, Repr

/-- One entry of session.members:
    the object with userId, username, socketId, joinedAt, isHost. -/
structure Member where
  userId : Nat
  username : String
  socketId : Nat
  joinedAt : Nat
  isHost : Bool
deriving DecidableEq, Repr

/-- One entry of session.messages:
    the object with messageId, userId, username, message, timestamp. -/
structure Message where
  messageId : Nat
  userId : Nat
  username : String
  message : String
  timestamp : Nat
deriving DecidableEq, Repr

/-- Session record: code, hostId, hostName, members, messages, createdAt,
    status, cleanupTimer.  The cleanupTimer handle is modelled by the
    absolute expiry time of the pending timer (none when no timer is
    armed). -/
structure Session where
  code : String
  hostId : Nat
  hostName : String
  members : List Member
  messages : List Message
  createdAt : Nat
  status : Status
  cleanupTimer : Option Nat
deriving DecidableEq, Repr

/-- The two module-level maps: sessions (sessionCode to session data) and
    userSessions (userId to sessionCode), as association lists. -/
structure Registry where
  sessions : List (String × Session)
  userSessions : List (Nat × String)
deriving DecidableEq, Repr

/-- Per-socket identity set by the authentication middleware:
    socket.userId, socket.username, socket.id, socket.isHost,
    socket.sessionCode. -/
structure SockInfo where
  userId : Nat
  username : String
  socketId : Nat
  isHost : Bool
  sessionCode : String
deriving DecidableEq, Repr

/-- Socket emissions performed by a handler, tagged with their scope:
    to the acting socket only, to the room minus the sender
    (socket.to(room).emit), or to the whole room (io.to(room).emit). -/
inductive Emit where
  | errorToSender (msg : String)
  | sessionStateToSender
  | memberJoinedToOthers (userId : Nat) (username : String) (isHost : Bool)
  | memberLeftToOthers (userId : Nat) (username : String) (isHost : Bool)
  | hostLeftToOthers
  | hostLeftToRoom
  | sessionEndedToRoom
  | chatToRoom (m : Message)
deriving DecidableEq, Repr

/-- Lookup in the sessions map (Map.get). -/
def lookupSession : List (String × Session) → String → Option Session
  | [], _ => none
  | (c, s) :: rest, code => if c = code then some s else lookupSession rest code

/-- Update or insert in the sessions map (Map.set, or in-place mutation of
    the session object retrieved by Map.get). -/
def setSession : List (String × Session) → String → Session → List (String × Session)
  | [], code, s => [(code, s)]
  | (c, s0) :: rest, code, s =>
    if c = code then (code, s) :: rest else (c, s0) :: setSession rest code s

/-- Deletion from the sessions map (Map.delete). -/
def eraseSession : List (String × Session) → String → List (String × Session)
  | [], _ => []
  | (c, s0) :: rest, code =>
    if c = code then rest else (c, s0) :: eraseSession rest code

/-- Deletion from the userSessions map (Map.delete). -/
def eraseUserSession : List (Nat × String) → Nat → List (Nat × String)
  | [], _ => []
  | (u, c) :: rest, uid =>
    if u = uid then rest else (u, c) :: eraseUserSession rest uid

/-- Lookup of a session through the registry. -/
def Registry.lookupS (reg : Registry) (code : String) : Option Session :=
  lookupSession reg.sessions code

/-- JavaScript whitespace test used by String.prototype.trim (the source
    only ever trims ASCII text). -/
def isWS (c : Char) : Bool :=
  c = ' ' || c = '\t' || c = '\n' || c = '\r'

/-- String.prototype.trim: drop whitespace at both ends. -/
def jsTrim (s : String) : String :=
  ⟨(((s.data.dropWhile isWS).reverse.dropWhile isWS).reverse)⟩

/-- String.prototype.toUpperCase, applied characterwise (the source only
    upper-cases ASCII codes and hex digits). -/
def jsToUpper (s : String) : String :=
  ⟨s.data.map Char.toUpper⟩

/-- Function validateMessage: require a non-empty value, trim it, reject
    the empty trimmed string and any trimmed string longer than
    MAX_MESSAGE_LENGTH, otherwise accept the trimmed text. -/
def validateMessage (message : String) : Except String String :=
  if message = "" then Except.error "Message is required"
  else
    let trimmed := jsTrim message
    if trimmed.length = 0 then Except.error "Message cannot be empty"
    else if trimmed.length > MAX_MESSAGE_LENGTH then
      Except.error "Message must be 500 characters or less"
    else Except.ok trimmed

/-- Character class of the username regex: a-z, A-Z, 0-9, whitespace,
    underscore and hyphen. -/
def usernameChar (c : Char) : Bool :=
  ('a' ≤ c && c ≤ 'z') || ('A' ≤ c && c ≤ 'Z') || ('0' ≤ c && c ≤ '9') ||
    isWS c || c = '_' || c = '-'

/-- Function validateUsername: require a non-empty value, trim it, reject
    the empty trimmed string, any trimmed string longer than
    MAX_USERNAME_LENGTH, and any character outside the allowed class;
    otherwise accept the trimmed name. -/
def validateUsername (username : String) : Except String String :=
  if username = "" then Except.error "Username is required"
  else
    let trimmed := jsTrim username
    if trimmed.length = 0 then Except.error "Username cannot be empty"
    else if trimmed.length > MAX_USERNAME_LENGTH then
      Except.error "Username must be 30 characters or less"
    else if !(trimmed.data.all usernameChar) then
      Except.error "Username contains invalid characters"
    else Except.ok trimmed

/-- Array.prototype.findIndex on the members array. -/
def findIndexMember (p : Member → Bool) : List Member → Option Nat
  | [] => none
  | m :: ms => if p m then some 0 else (findIndexMember p ms).map (· + 1)

/-- In-place update members[i].socketId := sid performed on reconnect. -/
def setSocketAt : List Member → Nat → Nat → List Member
  | [], _, _ => []
  | m :: ms, 0, sid => { m with socketId := sid } :: ms
  | m :: ms, i + 1, sid => m :: setSocketAt ms i sid

/-- Array.prototype.splice(i, 1) on the members array. -/
def eraseAt : List Member → Nat → List Member
  | [], _ => []
  | _ :: ms, 0 => ms
  | m :: ms, i + 1 => m :: eraseAt ms i

/-- Read members[i] (the handler only reads indices returned by
    findIndex, so the default member is never the observed value there). -/
def memberAt (l : List Member) (i : Nat) : Member :=
  l.getD i ⟨0, "", 0, 0, false⟩

/-- Handler io.on connection (src/unnamed/part_002 lines 397-453): look the
    session up (disconnect immediately when absent), cancel any scheduled
    cleanup, then either update the socketId of the member already holding
    this userId (reconnect, no join notification) or append a new member
    and notify the others; always send the session snapshot to the
    connecting socket. -/
def handleConnection (sock : SockInfo) (now : Nat) (reg : Registry) :
    Registry × List Emit :=
  match reg.lookupS sock.sessionCode with
  | none => (reg, [])
  | some session =>
    let session := { session with cleanupTimer := none }
    match findIndexMember (fun m => m.userId == sock.userId) session.members with
    | some i =>
      let session :=
        { session with members := setSocketAt session.members i sock.socketId }
      ({ reg with sessions := setSession reg.sessions sock.sessionCode session },
        [Emit.sessionStateToSender])
    | none =>
      let member : Member :=
        ⟨sock.userId, sock.username, sock.socketId, now, sock.isHost⟩
      let session := { session with members := session.members ++ [member] }
      ({ reg with sessions := setSession reg.sessions sock.sessionCode session },
        [Emit.sessionStateToSender,
          Emit.memberJoinedToOthers sock.userId sock.username sock.isHost])

/-- Handler socket.on chat:message (lines 459-482): validate, on failure
    emit an error to the sender only; on success append the trimmed
    message with a fresh id and the current time and broadcast it to the
    whole room including the sender. -/
def handleChat (sock : SockInfo) (now msgId : Nat) (text : String)
    (session : Session) : Session × List Emit :=
  match validateMessage text with
  | Except.error e => (session, [Emit.errorToSender e])
  | Except.ok trimmed =>
    let msg : Message := ⟨msgId, sock.userId, sock.username, trimmed, now⟩
    ({ session with messages := session.messages ++ [msg] },
      [Emit.chatToRoom msg])

/-- Handler socket.on host:leave (lines 488-501): non-hosts get an error;
    the host sets status to host-left unconditionally and the notice goes
    to the whole room. -/
def handleHostLeave (isHost : Bool) (session : Session) : Session × List Emit :=
  if !isHost then (session, [Emit.errorToSender "Only host can trigger this action"])
  else ({ session with status := Status.hostLeft }, [Emit.hostLeftToRoom])

/-- Handler socket.on session:end (lines 507-532), immediate effect:
    non-hosts get an error and nothing changes; the host sets status to
    ended and the notice goes to the whole room.  The delayed teardown
    (forced disconnects and registry deletion after 2 s) is outside the
    state touched by the claims and is not part of this step. -/
def handleSessionEnd (isHost : Bool) (session : Session) : Session × List Emit :=
  if !isHost then (session, [Emit.errorToSender "Only host can end the session"])
  else ({ session with status := Status.ended }, [Emit.sessionEndedToRoom])

/-- Handler socket.on disconnect (lines 599-644): look the session up
    (when gone, only drop the userSessions entry); find the member by
    socketId; when found splice it out, notify the rest of the room, on a
    host departure with status not yet ended move to host-left and notify,
    and when the member list became empty call scheduleSessionCleanup
    (which clears any previous timer and arms one for now plus the grace
    period); the session itself is never deleted here. -/
def handleDisconnect (sock : SockInfo) (now : Nat) (reg : Registry) :
    Registry × List Emit :=
  match reg.lookupS sock.sessionCode with
  | none =>
    ({ reg with userSessions := eraseUserSession reg.userSessions sock.userId }, [])
  | some session =>
    match findIndexMember (fun m => m.socketId == sock.socketId) session.members with
    | none =>
      ({ reg with userSessions := eraseUserSession reg.userSessions sock.userId }, [])
    | some i =>
      let leftMember := memberAt session.members i
      let members2 := eraseAt session.members i
      let hostDeparts := leftMember.isHost && !(session.status == Status.ended)
      let status2 := if hostDeparts then Status.hostLeft else session.status
      let timer2 :=
        if members2.length = 0 then some (now + SESSION_CLEANUP_GRACE_PERIOD)
        else session.cleanupTimer
      let session2 :=
        { session with members := members2, status := status2, cleanupTimer := timer2 }
      ({ reg with
          sessions := setSession reg.sessions sock.sessionCode session2,
          userSessions := eraseUserSession reg.userSessions sock.userId },
        [Emit.memberLeftToOthers leftMember.userId leftMember.username
            leftMember.isHost] ++
          (if hostDeparts then [Emit.hostLeftToOthers] else []))

/-- Fire of the timer armed by scheduleSessionCleanup (lines 175-193).
    The timer semantics (it runs only when still armed and only once its
    expiry has been reached) are the guards on cleanupTimer; the callback
    body then re-fetches the session and deletes it only when it still
    exists and its member list is still empty. -/
def graceFire (code : String) (t : Nat) (reg : Registry) : Registry :=
  match reg.lookupS code with
  | none => reg
  | some session =>
    match session.cleanupTimer with
    | none => reg
    | some e =>
      if e ≤ t then
        if session.members.length = 0 then
          { reg with sessions := eraseSession reg.sessions code }
        else reg
      else reg

/-- Join failure cases of POST /api/sessions/join. -/
inductive JoinErr where
  | codeRequired
  | invalidName (msg : String)
  | notFound
  | ended
  | full
deriving DecidableEq, Repr

/-- Join success payload of POST /api/sessions/join: the response fields
    read from the session next to the fresh non-host identity. -/
structure JoinOk where
  sessionCode : String
  userId : Nat
  isHost : Bool
  hostName : String
  status : Status
deriving DecidableEq, Repr

/-- Route POST /api/sessions/join (lines 259-307): require a session code,
    validate the username, look the session up under the upper-cased code;
    fail when absent, when the status is ended, or when the member count
    has reached MAX_MEMBERS_PER_SESSION; otherwise record the fresh userId
    in userSessions and answer with a non-host identity.  The fresh userId
    drawn from generateUserId is a parameter. -/
def joinSession (reg : Registry) (sessionCode username : String)
    (freshUserId : Nat) : Registry × Except JoinErr JoinOk :=
  if sessionCode = "" then (reg, Except.error JoinErr.codeRequired)
  else
    match validateUsername username with
    | Except.error e => (reg, Except.error (JoinErr.invalidName e))
    | Except.ok _uname =>
      let code := jsToUpper sessionCode
      match reg.lookupS code with
      | none => (reg, Except.error JoinErr.notFound)
      | some session =>
        if session.status = Status.ended then (reg, Except.error JoinErr.ended)
        else if session.members.length ≥ MAX_MEMBERS_PER_SESSION then
          (reg, Except.error JoinErr.full)
        else
          ({ reg with userSessions := (freshUserId, code) :: reg.userSessions },
            Except.ok
              ⟨session.code, freshUserId, false, session.hostName, session.status⟩)

/-- Loop body of generateSessionCode (lines 80-93): the do-while draws
    code number i (attempts becomes i + 1) and repeats while the code
    collides and attempts is still below 10.  The membership test on the
    sessions map and the random draws are parameters. -/
def genAux (has : String → Bool) (draws : Nat → String) (i : Nat) :
    String × Nat :=
  if has (draws i) = true ∧ i + 1 < 10 then genAux has draws (i + 1)
  else (draws i, i + 1)
termination_by 10 - i
decreasing_by omega

/-- Function generateSessionCode (lines 80-93): run the do-while, then
    throw when attempts reached 10, else return the last drawn code. -/
def generateSessionCode (has : String → Bool) (draws : Nat → String) :
    Except String String :=
  let r := genAux has draws 0
  if r.2 ≥ 10 then Except.error "Failed to generate unique session code"
  else Except.ok r.1

/-- Hex digit used by Buffer.toString with encoding hex (lowercase). -/
def hexDigitChar (n : Nat) : Char :=
  if n < 10 then Char.ofNat (48 + n) else Char.ofNat (97 + (n - 10))

/-- Hex encoding of one byte: two lowercase hex digits. -/
def byteToHexChars (b : Nat) : List Char :=
  [hexDigitChar (b / 16), hexDigitChar (b % 16)]

/-- One candidate code: crypto.randomBytes(3).toString(hex).toUpperCase()
    applied to the three drawn byte values. -/
def drawCode (b0 b1 b2 : Nat) : String :=
  ⟨(byteToHexChars b0 ++ byteToHexChars b1 ++ byteToHexChars b2).map Char.toUpper⟩

/-- Uppercase hexadecimal alphabet. -/
def hexUpperChars : List Char :=
  ['0', '1', '2', '3', '4', '5', '6', '7', '8', '9', 'A', 'B', 'C', 'D', 'E', 'F']

/-- Numeric rank of a status along the intended lifecycle order
    Active before HostLeft before Ended. -/
def statusRank : Status → Nat
  | Status.active => 0
  | Status.hostLeft => 1
  | Status.ended => 2

/-- Events of the cleanup-scheduler subsystem the temporal claim ranges
    over: a connection attaching, a disconnect, and a grace-timer fire,
    each stamped with its wall-clock time. -/
inductive REvent where
  | connectEv (sock : SockInfo) (now : Nat)
  | disconnectEv (sock : SockInfo) (now : Nat)
  | fireEv (code : String) (now : Nat)
deriving DecidableEq, Repr

/-- Registry effect of one scheduler-subsystem event. -/
def regStep : REvent → Registry → Registry
  | REvent.connectEv sock t, reg => (handleConnection sock t reg).1
  | REvent.disconnectEv sock t, reg => (handleDisconnect sock t reg).1
  | REvent.fireEv code t, reg => graceFire code t reg

/-- Run a sequence of scheduler-subsystem events. -/
def runTrace (evs : List REvent) (reg : Registry) : Registry :=
  evs.foldl (fun r e => regStep e r) reg

/-- Events that cannot end the grace window that expires at time e:
    connection attaches (they only cancel timers) and timer fires strictly
    before e.  Disconnect events are excluded. -/
def GraceSafe (e : Nat) : REvent → Prop
  | REvent.connectEv _ _ => True
  | REvent.disconnectEv _ _ => False
  | REvent.fireEv _ t => t < e

/-! Helper lemmas about the association-list maps. -/

lemma lookupSession_setSession_self (l : List (String × Session)) (code : String)
    (s : Session) : lookupSession (setSession l code s) code = some s := by
  induction l with
  | nil => simp [setSession, lookupSession]
  | cons p rest ih =>
    obtain ⟨c, s0⟩ := p
    by_cases h : c = code
    · simp [setSession, h, lookupSession]
    · simp [setSession, h, lookupSession, ih]

lemma lookupSession_setSession_ne (l : List (String × Session)) (code c : String)
    (s : Session) (h : c ≠ code) :
    lookupSession (setSession l code s) c = lookupSession l c := by
  have hcc : code ≠ c := Ne.symm h
  induction l with
  | nil => simp [setSession, lookupSession, hcc]
  | cons p rest ih =>
    obtain ⟨c0, s0⟩ := p
    by_cases h0 : c0 = code
    · subst h0
      simp [setSession, lookupSession, hcc]
    · simp only [setSession, if_neg h0, lookupSession]
      by_cases h1 : c0 = c
      · simp [h1]
      · simp [h1, ih]

lemma lookupSession_eraseSession_ne (l : List (String × Session)) (code c : String)
    (h : c ≠ code) :
    lookupSession (eraseSession l code) c = lookupSession l c := by
  have hcc : code ≠ c := Ne.symm h
  induction l with
  | nil => simp [eraseSession]
  | cons p rest ih =>
    obtain ⟨c0, s0⟩ := p
    by_cases h0 : c0 = code
    · subst h0
      simp [eraseSession, lookupSession, hcc]
    · simp only [eraseSession, if_neg h0, lookupSession]
      by_cases h1 : c0 = c
      · simp [h1]
      · simp [h1, ih]

/-! Helper lemmas about findIndex, splice and the in-place update. -/

lemma findIndexMember_eq_none_iff (p : Member → Bool) (l : List Member) :
    findIndexMember p l = none ↔ ∀ m ∈ l, p m = false := by
  induction l with
  | nil => simp [findIndexMember]
  | cons a l ih =>
    by_cases h : p a
    · simp [findIndexMember, h]
    · have h' : p a = false := Bool.eq_false_iff.mpr h
      simp only [findIndexMember, if_neg h]
      constructor
      · intro hmap
        have hnone : findIndexMember p l = none := by
          cases hfi : findIndexMember p l with
          | none => rfl
          | some k => rw [hfi] at hmap; simp at hmap
        intro m hm
        rcases List.mem_cons.mp hm with rfl | hm2
        · exact h'
        · exact (ih.mp hnone) m hm2
      · intro hall
        have hnone : findIndexMember p l =
            none := ih.mpr (fun m hm => hall m (List.mem_cons_of_mem _ hm))
        rw [hnone]
        rfl

lemma findIndexMember_append (p : Member → Bool) (pre : List Member) (m : Member)
    (post : List Member) (hpre : ∀ x ∈ pre, p x = false) (hm : p m = true) :
    findIndexMember p (pre ++ m :: post) = some pre.length := by
  induction pre with
  | nil => simp [findIndexMember, hm]
  | cons a pre ih =>
    have ha : p a = false := hpre a (List.mem_cons_self a pre)
    have ih2 := ih (fun x hx => hpre x (List.mem_cons_of_mem _ hx))
    simp [findIndexMember, ha, ih2]

lemma eraseAt_append (pre : List Member) (m : Member) (post : List Member) :
    eraseAt (pre ++ m :: post) pre.length = pre ++ post := by
  induction pre with
  | nil => simp [eraseAt]
  | cons a pre ih => simp [eraseAt, ih]

lemma memberAt_append (pre : List Member) (m : Member) (post : List Member) :
    memberAt (pre ++ m :: post) pre.length = m := by
  induction pre with
  | nil => simp [memberAt]
  | cons a pre ih => simpa [memberAt, List.getD] using ih

lemma setSocketAt_append (pre : List Member) (m : Member) (post : List Member)
    (sid : Nat) :
    setSocketAt (pre ++ m :: post) pre.length sid =
      pre ++ { m with socketId := sid } :: post := by
  induction pre with
  | nil => simp [setSocketAt]
  | cons a pre ih => simp [setSocketAt, ih]

lemma map_userId_setSocketAt (l : List Member) (i sid : Nat) :
    (setSocketAt l i sid).map Member.userId = l.map Member.userId := by
  induction l generalizing i with
  | nil => simp [setSocketAt]
  | cons a l ih =>
    cases i with
    | zero => simp [setSocketAt]
    | succ i => simp [setSocketAt, ih]

lemma length_setSocketAt (l : List Member) (i sid : Nat) :
    (setSocketAt l i sid).length = l.length := by
  have := congrArg List.length (map_userId_setSocketAt l i sid)
  simpa using this

/-! Helper lemmas about the code-generation loop. -/

lemma genAux_ge_aux (has : String → Bool) (draws : Nat → String) :
    ∀ n i, 10 ≤ i + n → (∀ j, i ≤ j → j ≤ 8 → has (draws j) = true) →
      (genAux has draws i).2 ≥ 10 := by
  intro n
  induction n with
  | zero =>
    intro i h hcoll
    rw [genAux]
    have hcond : ¬(has (draws i) = true ∧ i + 1 < 10) := by
      intro hc
      omega
    simp only [if_neg hcond]
    omega
  | succ n ih =>
    intro i h hcoll
    rw [genAux]
    by_cases hc : has (draws i) = true ∧ i + 1 < 10
    · simp only [if_pos hc]
      exact ih (i + 1) (by omega) (fun j hj1 hj2 => hcoll j (by omega) hj2)
    · simp only [if_neg hc]
      rcases Nat.lt_or_ge i 9 with hi | hi
      · exact absurd ⟨hcoll i le_rfl (by omega), by omega⟩ hc
      · simp
        omega

lemma genAux_fresh_aux (has : String → Bool) (draws : Nat → String) :
    ∀ n i j, j ≤ i + n → i ≤ j → j ≤ 8 → has (draws j) = false →
      (∀ k, i ≤ k → k < j → has (draws k) = true) →
      genAux has draws i = (draws j, j + 1) := by
  intro n
  induction n with
  | zero =>
    intro i j h1 h2 h3 hf hc
    have hij : i = j := by omega
    subst hij
    rw [genAux]
    have hcond : ¬(has (draws i) = true ∧ i + 1 < 10) := by
      intro hcc
      rw [hf] at hcc
      exact Bool.false_ne_true hcc.1
    simp [if_neg hcond]
  | succ n ih =>
    intro i j h1 h2 h3 hf hc
    rcases Nat.eq_or_lt_of_le h2 with hij | hlt
    · subst hij
      rw [genAux]
      have hcond : ¬(has (draws i) = true ∧ i + 1 < 10) := by
        intro hcc
        rw [hf] at hcc
        exact Bool.false_ne_true hcc.1
      simp [if_neg hcond]
    · have hhas : has (draws i) = true := hc i le_rfl hlt
      have hcond : has (draws i) = true ∧ i + 1 < 10 := ⟨hhas, by omega⟩
      rw [genAux]
      simp only [if_pos hcond]
      exact ih (i + 1) j (by omega) hlt h3 hf (fun k hk1 hk2 => hc k (by omega) hk2)

lemma genAux_shape (has : String → Bool) (draws : Nat → String) :
    ∀ n i, 10 ≤ i + n → ∃ k, i ≤ k ∧ genAux has draws i = (draws k, k + 1) := by
  intro n
  induction n with
  | zero =>
    intro i h
    rw [genAux]
    have hcond : ¬(has (draws i) = true ∧ i + 1 < 10) := by
      intro hc
      omega
    exact ⟨i, le_rfl, by simp [if_neg hcond]⟩
  | succ n ih =>
    intro i h
    rw [genAux]
    by_cases hc : has (draws i) = true ∧ i + 1 < 10
    · obtain ⟨k, hk1, hk2⟩ := ih (i + 1) (by omega)
      exact ⟨k, by omega, by simp [if_pos hc, hk2]⟩
    · exact ⟨i, le_rfl, by simp [if_neg hc]⟩

lemma generateSessionCode_ok_of_fresh (has : String → Bool) (draws : Nat → String)
    (j : Nat) (hj : j ≤ 8) (hf : has (draws j) = false)
    (hc : ∀ k, k < j → has (draws k) = true) :
    generateSessionCode has draws = Except.ok (draws j) := by
  have hrun := genAux_fresh_aux has draws j 0 j (by omega) (Nat.zero_le j) hj hf
    (fun k _ hk => hc k hk)
  unfold generateSessionCode
  rw [hrun]
  have : ¬(j + 1 ≥ 10) := by omega
  simp [this]

/-- C6: generateSessionCode draws codes and retries on collision within a
    bounded number of draws.  Because the do-while increments attempts to
    10 on the tenth draw and the guard after the loop throws whenever
    attempts reached 10, only the first nine draws can ever be returned:
    creation fails exactly when draws 0 through 8 all collide, and when
    some draw among the first nine is fresh, creation succeeds with the
    first such code. -/
theorem generateSessionCode_bounded_retry (has : String → Bool)
    (draws : Nat → String) :
    (generateSessionCode has draws =
        Except.error "Failed to generate unique session code" ↔
      ∀ j, j ≤ 8 → has (draws j) = true) ∧
    (∀ j, j ≤ 8 → has (draws j) = false →
      (∀ k, k < j → has (draws k) = true) →
      generateSessionCode has draws = Except.ok (draws j)) := by
  constructor
  · constructor
    · intro herr
      by_contra hnot
      push_neg at hnot
      obtain ⟨j, hj, hfj⟩ := hnot
      have hfj' : has (draws j) = false := Bool.eq_false_iff.mpr hfj
      have hex : ∃ k, has (draws k) = false := ⟨j, hfj'⟩
      have hspec : has (draws (Nat.find hex)) = false := Nat.find_spec hex
      have hle : Nat.find hex ≤ j := Nat.find_min' hex hfj'
      have hcoll : ∀ k, k < Nat.find hex → has (draws k) = true := by
        intro k hk
        have hnotk := Nat.find_min hex hk
        cases hval : has (draws k) with
        | false => exact absurd hval hnotk
        | true => rfl
      have hok := generateSessionCode_ok_of_fresh has draws (Nat.find hex)
        (le_trans hle hj) hspec hcoll
      rw [hok] at herr
      exact Except.noConfusion herr
    · intro hall
      have h10 := genAux_ge_aux has draws 10 0 (by omega) (fun k _ hk => hall k hk)
      simp only [generateSessionCode]
      rw [if_pos h10]
  · exact fun j hj hf hc => generateSessionCode_ok_of_fresh has draws j hj hf hc

/-- Concrete registry membership test for the code-generation witness. -/
def exHas : String → Bool := fun c => c == "AAAAAA"

/-- Concrete draw sequence for the witness: two collisions then a fresh
    code. -/
def exDraws : Nat → String := fun i => if i < 2 then "AAAAAA" else "BBBBBB"

/-- Witness: with two colliding draws followed by a fresh one, creation
    succeeds with the fresh code. -/
theorem generateSessionCode_bounded_retry_witness :
    generateSessionCode exHas exDraws = Except.ok "BBBBBB" :=
  (generateSessionCode_bounded_retry exHas exDraws).2 2 (by decide) (by decide)
    (by decide)

/-- Upper-cased hex digits land in the uppercase hexadecimal alphabet. -/
lemma hexDigit_mem : ∀ n, n < 16 → Char.toUpper (hexDigitChar n) ∈ hexUpperChars := by
  decide

/-- Every candidate code drawn from three bytes is a 6-character string
    over the uppercase hexadecimal alphabet. -/
lemma drawCode_hex (b0 b1 b2 : Nat) (h0 : b0 < 256) (h1 : b1 < 256)
    (h2 : b2 < 256) :
    (drawCode b0 b1 b2).length = 6 ∧
      ∀ c ∈ (drawCode b0 b1 b2).data, c ∈ hexUpperChars := by
  constructor
  · show ((byteToHexChars b0 ++ byteToHexChars b1 ++ byteToHexChars b2).map
      Char.toUpper).length = 6
    simp [byteToHexChars]
  · intro c hc
    have hc2 : c ∈ (byteToHexChars b0 ++ byteToHexChars b1 ++
        byteToHexChars b2).map Char.toUpper := hc
    obtain ⟨x, hx, rfl⟩ := List.mem_map.mp hc2
    have hx2 : x ∈ byteToHexChars b0 ∨ x ∈ byteToHexChars b1 ∨
        x ∈ byteToHexChars b2 := by
      rcases List.mem_append.mp hx with hx01 | hx2
      · rcases List.mem_append.mp hx01 with hx0 | hx1
        · exact Or.inl hx0
        · exact Or.inr (Or.inl hx1)
      · exact Or.inr (Or.inr hx2)
    have hbyte : ∀ b : Nat, b < 256 → x ∈ byteToHexChars b →
        Char.toUpper x ∈ hexUpperChars := by
      intro b hb hxb
      simp only [byteToHexChars, List.mem_cons, List.mem_singleton] at hxb
      rcases hxb with rfl | rfl | hfalse
      · exact hexDigit_mem (b / 16) (by omega)
      · exact hexDigit_mem (b % 16) (by omega)
      · exact absurd hfalse (List.not_mem_nil x)
    rcases hx2 with hxb | hxb | hxb
    · exact hbyte b0 h0 hxb
    · exact hbyte b1 h1 hxb
    · exact hbyte b2 h2 hxb

/-- C9: every code randomBytes(3).toString(hex).toUpperCase() can produce
    is exactly 6 characters over the hexadecimal alphabet 0-9 and A-F; in
    particular, every successful result of generateSessionCode fed by such
    draws stays in that alphabet, and the letters G through Z are outside
    it (so the code space is the 16-power-6 subset of the 6-character
    uppercase alphanumeric space). -/
theorem sessionCode_hex_alphabet :
    (∀ b0 b1 b2 : Nat, b0 < 256 → b1 < 256 → b2 < 256 →
      (drawCode b0 b1 b2).length = 6 ∧
        ∀ c ∈ (drawCode b0 b1 b2).data, c ∈ hexUpperChars) ∧
    (∀ (has : String → Bool) (draws : Nat → String),
      (∀ i : Nat, ∃ b0 b1 b2 : Nat, b0 < 256 ∧ b1 < 256 ∧ b2 < 256 ∧
        draws i = drawCode b0 b1 b2) →
      ∀ c, generateSessionCode has draws = Except.ok c →
        c.length = 6 ∧ ∀ ch ∈ c.data, ch ∈ hexUpperChars) ∧
    (∀ c ∈ hexUpperChars, ¬('G' ≤ c ∧ c ≤ 'Z')) := by
  refine ⟨fun b0 b1 b2 h0 h1 h2 => drawCode_hex b0 b1 b2 h0 h1 h2, ?_, by decide⟩
  intro has draws hdraws c hok
  obtain ⟨k, hk, hshape⟩ := genAux_shape has draws 10 0 (by omega)
  simp only [generateSessionCode] at hok
  rw [hshape] at hok
  by_cases h10 : k + 1 ≥ 10
  · rw [if_pos h10] at hok
    exact Except.noConfusion hok
  · rw [if_neg h10] at hok
    have hc : draws k = c := by
      injection hok
    obtain ⟨b0, b1, b2, hb0, hb1, hb2, hbeq⟩ := hdraws k
    rw [← hc, hbeq]
    exact drawCode_hex b0 b1 b2 hb0 hb1 hb2

/-- Witness: the bytes 255, 0, 171 yield the 6-character hex code FF00AB. -/
theorem sessionCode_hex_alphabet_witness :
    (drawCode 255 0 171).length = 6 ∧
      ∀ c ∈ (drawCode 255 0 171).data, c ∈ hexUpperChars :=
  sessionCode_hex_alphabet.1 255 0 171 (by decide) (by decide) (by decide)

/-! Characterization of validateMessage. -/

lemma validateMessage_invalid (text : String)
    (h : (jsTrim text).length = 0 ∨ (jsTrim text).length > MAX_MESSAGE_LENGTH) :
    ∃ e, validateMessage text = Except.error e := by
  unfold validateMessage
  by_cases h0 : text = ""
  · exact ⟨"Message is required", by simp [h0]⟩
  · simp only [if_neg h0]
    rcases h with h1 | h2
    · exact ⟨"Message cannot be empty", by simp [h1]⟩
    · have hmax : MAX_MESSAGE_LENGTH = 500 := rfl
      have h1 : ¬((jsTrim text).length = 0) := by omega
      exact ⟨"Message must be 500 characters or less", by simp [h1, h2]⟩

lemma validateMessage_valid (text : String)
    (h1 : (jsTrim text).length ≠ 0)
    (h2 : (jsTrim text).length ≤ MAX_MESSAGE_LENGTH) :
    validateMessage text = Except.ok (jsTrim text) := by
  have h0 : text ≠ "" := by
    intro h
    rw [h] at h1
    exact h1 rfl
  unfold validateMessage
  simp [h0, h1, Nat.not_lt.mpr h2]

/-- C2 (amended): the chat handler validates the trimmed text.  When the
    trimmed text is empty or longer than MAX_MESSAGE_LENGTH the session is
    untouched and a single error goes back to the sender; otherwise the
    trimmed message is appended to the log and broadcast once to the whole
    room, with members and status untouched. -/
theorem chat_message_validation (sock : SockInfo) (now msgId : Nat)
    (text : String) (session : Session) :
    (((jsTrim text).length = 0 ∨ (jsTrim text).length > MAX_MESSAGE_LENGTH) →
      (handleChat sock now msgId text session).1 = session ∧
        ∃ e, (handleChat sock now msgId text session).2 =
          [Emit.errorToSender e]) ∧
    ((jsTrim text).length ≠ 0 → (jsTrim text).length ≤ MAX_MESSAGE_LENGTH →
      (handleChat sock now msgId text session).1.messages =
          session.messages ++
            [⟨msgId, sock.userId, sock.username, jsTrim text, now⟩] ∧
        (handleChat sock now msgId text session).1.members = session.members ∧
        (handleChat sock now msgId text session).1.status = session.status ∧
        (handleChat sock now msgId text session).2 =
          [Emit.chatToRoom
            ⟨msgId, sock.userId, sock.username, jsTrim text, now⟩]) := by
  constructor
  · intro h
    obtain ⟨e, he⟩ := validateMessage_invalid text h
    unfold handleChat
    rw [he]
    exact ⟨rfl, e, rfl⟩
  · intro h1 h2
    have hv := validateMessage_valid text h1 h2
    unfold handleChat
    rw [hv]
    exact ⟨rfl, rfl, rfl, rfl⟩

/-- Sample 501-character text: 500 letters followed by one blank. -/
def longText : String := ⟨List.replicate 500 'a' ++ [' ']⟩

/-- Sample session and socket used by concrete instances. -/
def obsSession : Session := ⟨"ABC123", 1, "Alice", [], [], 0, Status.active, none⟩

/-- Socket identity of the sample host. -/
def obsSock : SockInfo := ⟨1, "Alice", 10, true, "ABC123"⟩

/-- Counterexample to C2 as stated: a 501-character text whose last
    character is a blank is accepted, appended (trimmed) to the log and
    broadcast, because the length bound is checked after trimming. -/
theorem chat_message_501_counterexample :
    longText.length = 501 ∧
    (handleChat obsSock 5 7 longText obsSession).1.messages =
      [⟨7, 1, "Alice", ⟨List.replicate 500 'a'⟩, 5⟩] ∧
    (handleChat obsSock 5 7 longText obsSession).2 =
      [Emit.chatToRoom ⟨7, 1, "Alice", ⟨List.replicate 500 'a'⟩, 5⟩] := by
  refine ⟨by decide, by decide, by decide⟩

/-- Witness: a two-character message is appended to the log with its
    trimmed text. -/
theorem chat_message_validation_witness :
    (handleChat obsSock 5 7 "hi" obsSession).1.messages =
      obsSession.messages ++ [⟨7, 1, "Alice", jsTrim "hi", 5⟩] :=
  ((chat_message_validation obsSock 5 7 "hi" obsSession).2 (by decide)
    (by decide)).1

/-- Sample session already in the ended state. -/
def endedSession : Session := ⟨"ABC123", 1, "Alice", [], [], 0, Status.ended, none⟩

/-- C10: the chat handler has no status guard, so a valid message sent to
    a session whose status is already ended is still appended to the log
    and broadcast to the room; the ended status does not make the log
    read-only. -/
theorem chat_after_ended (sock : SockInfo) (now msgId : Nat)
    (text trimmed : String) (session : Session)
    (hst : session.status = Status.ended)
    (hv : validateMessage text = Except.ok trimmed) :
    (handleChat sock now msgId text session).1.messages =
      session.messages ++ [⟨msgId, sock.userId, sock.username, trimmed, now⟩] ∧
    (handleChat sock now msgId text session).1.status = Status.ended ∧
    (handleChat sock now msgId text session).2 =
      [Emit.chatToRoom ⟨msgId, sock.userId, sock.username, trimmed, now⟩] := by
  unfold handleChat
  rw [hv]
  exact ⟨rfl, hst, rfl⟩

/-- Witness: a valid message on a concrete ended session is appended and
    broadcast. -/
theorem chat_after_ended_witness :
    (handleChat obsSock 5 7 "hi" endedSession).1.messages =
      endedSession.messages ++ [⟨7, 1, "Alice", "hi", 5⟩] ∧
    (handleChat obsSock 5 7 "hi" endedSession).1.status = Status.ended ∧
    (handleChat obsSock 5 7 "hi" endedSession).2 =
      [Emit.chatToRoom ⟨7, 1, "Alice", "hi", 5⟩] :=
  chat_after_ended obsSock 5 7 "hi" "hi" endedSession rfl rfl

/-- Counterexample to C1 as stated: the host:leave handler has no status
    guard, so a host-leave arriving on a session already ended moves its
    status back to host-left, a regression out of the terminal state. -/
theorem hostLeave_after_end_counterexample :
    endedSession.status = Status.ended ∧
    (handleHostLeave true endedSession).1.status = Status.hostLeft ∧
    (handleHostLeave true endedSession).1.status ≠ Status.ended := by
  refine ⟨rfl, rfl, by decide⟩

/-- Session status never decreases in rank under a disconnect step. -/
lemma disconnect_status_monotone (sock : SockInfo) (now : Nat) (reg : Registry)
    (code : String) (s s2 : Session) (hs : reg.lookupS code = some s)
    (hs2 : (handleDisconnect sock now reg).1.lookupS code = some s2) :
    statusRank s2.status ≥ statusRank s.status := by
  cases hl : reg.lookupS sock.sessionCode with
  | none =>
    simp only [handleDisconnect, hl] at hs2
    simp only [Registry.lookupS] at hs hs2
    rw [hs] at hs2
    cases hs2
    exact le_rfl
  | some session =>
    cases hfi : findIndexMember (fun m => m.socketId == sock.socketId)
        session.members with
    | none =>
      simp only [handleDisconnect, hl, hfi] at hs2
      simp only [Registry.lookupS] at hs hs2
      rw [hs] at hs2
      cases hs2
      exact le_rfl
    | some i =>
      simp only [handleDisconnect, hl, hfi] at hs2
      simp only [Registry.lookupS] at hs hs2 hl
      by_cases hcode : code = sock.sessionCode
      · subst hcode
        rw [lookupSession_setSession_self] at hs2
        rw [hs] at hl
        cases hl
        cases hs2
        by_cases hd : (memberAt s.members i).isHost = true ∧
            ¬(s.status = Status.ended)
        · have hdb : ((memberAt s.members i).isHost &&
              !(s.status == Status.ended)) = true := by
            rw [hd.1]
            simpa using hd.2
          simp only [hdb, if_true]
          have hne : ¬(s.status = Status.ended) := hd.2
          cases hst : s.status
          · simp [statusRank]
          · simp [statusRank]
          · exact absurd hst hne
        · have hdb : ((memberAt s.members i).isHost &&
              !(s.status == Status.ended)) = false := by
            rcases Decidable.not_and_iff_or_not.mp hd with h1 | h1
            · simp [Bool.eq_false_iff.mpr h1]
            · have hse : s.status = Status.ended := Decidable.not_not.mp h1
              simp [hse]
          simp only [hdb, Bool.false_eq_true, if_false]
          exact le_rfl
      · rw [lookupSession_setSession_ne _ _ _ _ hcode] at hs2
        rw [hs] at hs2
        cases hs2
        exact le_rfl

/-- C1 (amended): session-end and disconnect never decrease the status
    rank along Active, HostLeft, Ended; a repeated host-leave on a
    HostLeft session and a repeated session-end on an Ended session leave
    the status unchanged; but an explicit host-leave from the host always
    forces status to HostLeft, even on an Ended session, which is the one
    regression the handlers allow. -/
theorem status_monotone_amended :
    (∀ (s : Session) (h : Bool),
      statusRank (handleSessionEnd h s).1.status ≥ statusRank s.status) ∧
    (∀ (sock : SockInfo) (now : Nat) (reg : Registry) (code : String)
        (s s2 : Session), reg.lookupS code = some s →
      (handleDisconnect sock now reg).1.lookupS code = some s2 →
      statusRank s2.status ≥ statusRank s.status) ∧
    (∀ s : Session, s.status = Status.hostLeft →
      (handleHostLeave true s).1.status = s.status) ∧
    (∀ s : Session, s.status = Status.ended →
      (handleSessionEnd true s).1.status = s.status) ∧
    (∀ s : Session, (handleHostLeave true s).1.status = Status.hostLeft) := by
  refine ⟨?_, disconnect_status_monotone, ?_, ?_, ?_⟩
  · intro s h
    cases h with
    | false => exact le_rfl
    | true =>
      show statusRank Status.ended ≥ statusRank s.status
      cases s.status <;> simp [statusRank]
  · intro s hst
    rw [hst]
    rfl
  · intro s hst
    rw [hst]
    rfl
  · intro s
    rfl

/-- Witness: a repeated host-leave on a session already in HostLeft keeps
    the status at HostLeft. -/
def hostLeftSession : Session := ⟨"ABC123", 1, "Alice", [], [], 0, Status.hostLeft, none⟩

/-- Witness for the amended status theorem at a concrete session. -/
theorem status_monotone_amended_witness :
    (handleHostLeave true hostLeftSession).1.status = hostLeftSession.status :=
  status_monotone_amended.2.2.1 hostLeftSession rfl

/-- C8: a session-end event from a non-host leaves the session record
    entirely unchanged (status, members, messages and timer) and produces
    exactly one error emission to the sender, with nothing broadcast. -/
theorem nonhost_session_end_frame (s : Session) :
    handleSessionEnd false s =
      (s, [Emit.errorToSender "Only host can end the session"]) := rfl

/-- C3: attaching a connection whose userId is already a member replaces
    only that member's socketId (same list shape and length, messages and
    status untouched, no member-joined broadcast); attaching a fresh
    userId appends one member and broadcasts member-joined to the others;
    and in all cases the member list stays free of duplicate userIds. -/
theorem attach_semantics (sock : SockInfo) (now : Nat) (reg : Registry)
    (s : Session) (hs : reg.lookupS sock.sessionCode = some s) :
    (∀ pre m post, s.members = pre ++ m :: post →
      (∀ x ∈ pre, (x.userId == sock.userId) = false) →
      (m.userId == sock.userId) = true →
      ∃ s2, (handleConnection sock now reg).1.lookupS sock.sessionCode = some s2 ∧
        s2.members = pre ++ { m with socketId := sock.socketId } :: post ∧
        s2.members.length = s.members.length ∧
        s2.messages = s.messages ∧ s2.status = s.status ∧
        (handleConnection sock now reg).2 = [Emit.sessionStateToSender]) ∧
    ((∀ x ∈ s.members, (x.userId == sock.userId) = false) →
      ∃ s2, (handleConnection sock now reg).1.lookupS sock.sessionCode = some s2 ∧
        s2.members = s.members ++
          [⟨sock.userId, sock.username, sock.socketId, now, sock.isHost⟩] ∧
        s2.messages = s.messages ∧ s2.status = s.status ∧
        (handleConnection sock now reg).2 = [Emit.sessionStateToSender,
          Emit.memberJoinedToOthers sock.userId sock.username sock.isHost]) ∧
    (∀ s2, List.Nodup (s.members.map Member.userId) →
      (handleConnection sock now reg).1.lookupS sock.sessionCode = some s2 →
      List.Nodup (s2.members.map Member.userId)) := by
  refine ⟨?_, ?_, ?_⟩
  · intro pre m post hm hpre hmid
    have hfi : findIndexMember (fun x => x.userId == sock.userId) s.members =
        some pre.length := by
      rw [hm]
      exact findIndexMember_append _ pre m post hpre hmid
    refine ⟨{ s with
                cleanupTimer := none,
                members := setSocketAt s.members pre.length sock.socketId },
      ?_, ?_, ?_, rfl, rfl, ?_⟩
    · simp only [handleConnection, hs, hfi]
      simp only [Registry.lookupS]
      rw [lookupSession_setSession_self]
    · show setSocketAt s.members pre.length sock.socketId = _
      rw [hm]
      exact setSocketAt_append pre m post sock.socketId
    · show (setSocketAt s.members pre.length sock.socketId).length = _
      exact length_setSocketAt s.members pre.length sock.socketId
    · simp only [handleConnection, hs, hfi]
  · intro hall
    have hfi : findIndexMember (fun x => x.userId == sock.userId) s.members =
        none := (findIndexMember_eq_none_iff _ _).mpr hall
    refine ⟨{ s with
                cleanupTimer := none,
                members := s.members ++
                  [⟨sock.userId, sock.username, sock.socketId, now, sock.isHost⟩] },
      ?_, rfl, rfl, rfl, ?_⟩
    · simp only [handleConnection, hs, hfi]
      simp only [Registry.lookupS]
      rw [lookupSession_setSession_self]
    · simp only [handleConnection, hs, hfi]
  · intro s2 hnd hs2
    cases hfi : findIndexMember (fun x => x.userId == sock.userId) s.members with
    | some i =>
      simp only [handleConnection, hs, hfi] at hs2
      simp only [Registry.lookupS] at hs2
      rw [lookupSession_setSession_self] at hs2
      cases hs2
      show List.Nodup ((setSocketAt s.members i sock.socketId).map Member.userId)
      rw [map_userId_setSocketAt]
      exact hnd
    | none =>
      simp only [handleConnection, hs, hfi] at hs2
      simp only [Registry.lookupS] at hs2
      rw [lookupSession_setSession_self] at hs2
      cases hs2
      have hnotin : (sock.userId : Nat) ∉ s.members.map Member.userId := by
        intro hmem
        obtain ⟨x, hx, hxeq⟩ := List.mem_map.mp hmem
        have := (findIndexMember_eq_none_iff _ _).mp hfi x hx
        rw [hxeq] at this
        simp at this
      show List.Nodup ((s.members ++
        [(⟨sock.userId, sock.username, sock.socketId, now, sock.isHost⟩ :
          Member)]).map Member.userId)
      rw [List.map_append]
      rw [List.nodup_append]
      refine ⟨hnd, List.nodup_singleton _, ?_⟩
      intro a ha hb
      simp at hb
      rw [hb] at ha
      exact hnotin ha

/-- Single sample member: the host Alice on socket 10. -/
def memberAlice : Member := ⟨1, "Alice", 10, 0, true⟩

/-- Sample session holding exactly the member Alice. -/
def sessionW : Session := ⟨"ABC123", 1, "Alice", [memberAlice], [], 0, Status.active, none⟩

/-- Sample registry holding sessionW under its code. -/
def regW : Registry := ⟨[("ABC123", sessionW)], []⟩

/-- Socket identity of Alice reconnecting on a new socket 99. -/
def sockAliceRe : SockInfo := ⟨1, "Alice", 99, true, "ABC123"⟩

/-- Witness: Alice reconnecting replaces only her socketId; the list
    shape, length, log and status stay, and nothing is broadcast. -/
theorem attach_semantics_witness :
    ∃ s2, (handleConnection sockAliceRe 8 regW).1.lookupS
        sockAliceRe.sessionCode = some s2 ∧
      s2.members = [] ++ { memberAlice with socketId := sockAliceRe.socketId } :: [] ∧
      s2.members.length = sessionW.members.length ∧
      s2.messages = sessionW.messages ∧ s2.status = sessionW.status ∧
      (handleConnection sockAliceRe 8 regW).2 = [Emit.sessionStateToSender] :=
  (attach_semantics sockAliceRe 8 regW sessionW rfl).1 [] memberAlice []
    rfl (by intro x hx; cases hx) rfl

/-- C5: a disconnect whose socketId matches the member m removes exactly
    that member, broadcasts member-left to the remaining room, transitions
    to HostLeft with a host-left broadcast exactly when m was the host and
    the status is not yet Ended, arms the grace timer exactly when the
    member list became empty, and never deletes the session itself. -/
theorem disconnect_behavior (sock : SockInfo) (now : Nat) (reg : Registry)
    (s : Session) (pre post : List Member) (m : Member)
    (hs : reg.lookupS sock.sessionCode = some s)
    (hm : s.members = pre ++ m :: post)
    (hpre : ∀ x ∈ pre, (x.socketId == sock.socketId) = false)
    (hmid : (m.socketId == sock.socketId) = true) :
    ∃ s2, (handleDisconnect sock now reg).1.lookupS sock.sessionCode = some s2 ∧
      s2.members = pre ++ post ∧
      s2.messages = s.messages ∧
      Emit.memberLeftToOthers m.userId m.username m.isHost ∈
        (handleDisconnect sock now reg).2 ∧
      (m.isHost = true → s.status ≠ Status.ended →
        s2.status = Status.hostLeft ∧
          Emit.hostLeftToOthers ∈ (handleDisconnect sock now reg).2) ∧
      ((m.isHost = false ∨ s.status = Status.ended) →
        s2.status = s.status ∧
          Emit.hostLeftToOthers ∉ (handleDisconnect sock now reg).2) ∧
      (pre ++ post = [] →
        s2.cleanupTimer = some (now + SESSION_CLEANUP_GRACE_PERIOD)) ∧
      (pre ++ post ≠ [] → s2.cleanupTimer = s.cleanupTimer) := by
  have hfi : findIndexMember (fun x => x.socketId == sock.socketId) s.members =
      some pre.length := by
    rw [hm]
    exact findIndexMember_append _ pre m post hpre hmid
  have hget : memberAt s.members pre.length = m := by
    rw [hm]
    exact memberAt_append pre m post
  have herase : eraseAt s.members pre.length = pre ++ post := by
    rw [hm]
    exact eraseAt_append pre m post
  refine ⟨{ s with
              members := pre ++ post,
              status := if (m.isHost && !(s.status == Status.ended)) = true
                then Status.hostLeft else s.status,
              cleanupTimer := if (pre ++ post).length = 0
                then some (now + SESSION_CLEANUP_GRACE_PERIOD)
                else s.cleanupTimer },
    ?_, rfl, rfl, ?_, ?_, ?_, ?_, ?_⟩
  · simp only [handleDisconnect, hs, hfi, hget, herase]
    simp only [Registry.lookupS]
    rw [lookupSession_setSession_self]
  · simp only [handleDisconnect, hs, hfi, hget]
    simp
  · intro hhost hne
    have hdb : (m.isHost && !(s.status == Status.ended)) = true := by
      rw [hhost]
      simpa using hne
    constructor
    · show (if (m.isHost && !(s.status == Status.ended)) = true
        then Status.hostLeft else s.status) = Status.hostLeft
      simp [hdb]
    · simp only [handleDisconnect, hs, hfi, hget]
      simp [hdb]
  · intro hcase
    have hdb : (m.isHost && !(s.status == Status.ended)) = false := by
      rcases hcase with h1 | h1
      · simp [h1]
      · simp [h1]
    constructor
    · show (if (m.isHost && !(s.status == Status.ended)) = true
        then Status.hostLeft else s.status) = s.status
      simp [hdb]
    · simp only [handleDisconnect, hs, hfi, hget]
      simp [hdb]
  · intro hempty
    show (if (pre ++ post).length = 0
      then some (now + SESSION_CLEANUP_GRACE_PERIOD) else s.cleanupTimer) = _
    simp [hempty]
  · intro hne
    have hlen : ¬((pre ++ post).length = 0) := by
      simpa [List.length_eq_zero] using hne
    show (if (pre ++ post).length = 0
      then some (now + SESSION_CLEANUP_GRACE_PERIOD) else s.cleanupTimer) = _
    rw [if_neg hlen]

/-- Witness: the lone host Alice disconnecting empties the session, emits
    member-left and host-left, moves status to HostLeft and arms the grace
    timer, while the session stays in the registry. -/
theorem disconnect_behavior_witness :
    ∃ s2, (handleDisconnect obsSock 7 regW).1.lookupS obsSock.sessionCode =
        some s2 ∧
      s2.members = [] ++ [] ∧
      s2.messages = sessionW.messages ∧
      Emit.memberLeftToOthers memberAlice.userId memberAlice.username
          memberAlice.isHost ∈ (handleDisconnect obsSock 7 regW).2 ∧
      (memberAlice.isHost = true → sessionW.status ≠ Status.ended →
        s2.status = Status.hostLeft ∧
          Emit.hostLeftToOthers ∈ (handleDisconnect obsSock 7 regW).2) ∧
      ((memberAlice.isHost = false ∨ sessionW.status = Status.ended) →
        s2.status = sessionW.status ∧
          Emit.hostLeftToOthers ∉ (handleDisconnect obsSock 7 regW).2) ∧
      (([] : List Member) ++ [] = [] →
        s2.cleanupTimer = some (7 + SESSION_CLEANUP_GRACE_PERIOD)) ∧
      (([] : List Member) ++ [] ≠ [] → s2.cleanupTimer = sessionW.cleanupTimer) :=
  disconnect_behavior obsSock 7 regW sessionW [] [] memberAlice rfl rfl
    (by intro x hx; cases hx) rfl

/-- C7: with a non-empty code and a valid display name, join fails with
    notFound when no session is registered under the upper-cased code,
    with ended when that session's status is Ended, with full when its
    member count has reached MAX_MEMBERS_PER_SESSION, and otherwise
    returns a non-host identity carrying the session's code, host name and
    status while leaving the sessions map untouched. -/
theorem join_semantics (reg : Registry) (code username uname : String)
    (uid : Nat) (hcode : code ≠ "")
    (hname : validateUsername username = Except.ok uname) :
    (reg.lookupS (jsToUpper code) = none →
      joinSession reg code username uid = (reg, Except.error JoinErr.notFound)) ∧
    (∀ s, reg.lookupS (jsToUpper code) = some s → s.status = Status.ended →
      joinSession reg code username uid = (reg, Except.error JoinErr.ended)) ∧
    (∀ s, reg.lookupS (jsToUpper code) = some s → s.status ≠ Status.ended →
      s.members.length ≥ MAX_MEMBERS_PER_SESSION →
      joinSession reg code username uid = (reg, Except.error JoinErr.full)) ∧
    (∀ s, reg.lookupS (jsToUpper code) = some s → s.status ≠ Status.ended →
      s.members.length < MAX_MEMBERS_PER_SESSION →
      (joinSession reg code username uid).2 =
        Except.ok ⟨s.code, uid, false, s.hostName, s.status⟩ ∧
      (joinSession reg code username uid).1.sessions = reg.sessions) := by
  refine ⟨?_, ?_, ?_, ?_⟩
  · intro hlk
    simp [joinSession, hcode, hname, hlk]
  · intro s hlk hst
    simp [joinSession, hcode, hname, hlk, hst]
  · intro s hlk hst hfull
    have hnotlt : ¬(s.members.length < MAX_MEMBERS_PER_SESSION) := by omega
    simp [joinSession, hcode, hname, hlk, hst, Nat.not_lt.mp hnotlt]
  · intro s hlk hst hlt
    have hnotge : ¬(s.members.length ≥ MAX_MEMBERS_PER_SESSION) := by omega
    constructor
    · simp [joinSession, hcode, hname, hlk, hst, hnotge]
    · simp [joinSession, hcode, hname, hlk, hst, hnotge]

/-- Witness: Bob joining the one-member sample session gets a non-host
    identity with the session's code and status, and the sessions map is
    untouched. -/
theorem join_semantics_witness :
    (joinSession regW "abc123" "Bob" 42).2 =
      Except.ok ⟨sessionW.code, 42, false, sessionW.hostName, sessionW.status⟩ ∧
    (joinSession regW "abc123" "Bob" 42).1.sessions = regW.sessions :=
  (join_semantics regW "abc123" "Bob" "Bob" 42 (by decide) rfl).2.2.2
    sessionW rfl (by decide) (by decide)

/-- A successful lookup means the key occurs in the map. -/
lemma lookupSession_some_key (l : List (String × Session)) (c : String)
    (s : Session) (h : lookupSession l c = some s) : c ∈ l.map Prod.fst := by
  induction l with
  | nil => exact Option.noConfusion h
  | cons p rest ih =>
    obtain ⟨c0, s0⟩ := p
    by_cases h0 : c0 = c
    · simp [h0]
    · simp only [lookupSession, if_neg h0] at h
      simp [ih h]

/-- Deleting a key from a duplicate-free map makes its lookup fail. -/
lemma lookupSession_eraseSession_self (l : List (String × Session))
    (code : String) (hnd : (l.map Prod.fst).Nodup) :
    lookupSession (eraseSession l code) code = none := by
  induction l with
  | nil => simp [eraseSession, lookupSession]
  | cons p rest ih =>
    obtain ⟨c0, s0⟩ := p
    simp only [List.map_cons, List.nodup_cons] at hnd
    by_cases h0 : c0 = code
    · subst h0
      have herase : eraseSession ((c0, s0) :: rest) c0 = rest := by
        simp [eraseSession]
      rw [herase]
      cases hlr : lookupSession rest c0 with
      | none => rfl
      | some s1 => exact absurd (lookupSession_some_key rest c0 s1 hlr) hnd.1
    · simp only [eraseSession, if_neg h0, lookupSession, if_neg h0]
      exact ih hnd.2

/-- A fire of a timer that is not armed is a no-op. -/
lemma graceFire_of_timer_none (code : String) (t : Nat) (reg : Registry)
    (s : Session) (hls : reg.lookupS code = some s)
    (htm : s.cleanupTimer = none) : graceFire code t reg = reg := by
  simp [graceFire, hls, htm]

/-- A connection attach preserves a session's presence, message history
    and status, and can only leave its timer alone or cancel it. -/
lemma connect_preserves (sock : SockInfo) (t : Nat) (reg : Registry)
    (code : String) (s : Session) (hls : reg.lookupS code = some s) :
    ∃ s2, (handleConnection sock t reg).1.lookupS code = some s2 ∧
      s2.messages = s.messages ∧ s2.status = s.status ∧
      (s2.cleanupTimer = s.cleanupTimer ∨ s2.cleanupTimer = none) := by
  cases hl : reg.lookupS sock.sessionCode with
  | none =>
    refine ⟨s, ?_, rfl, rfl, Or.inl rfl⟩
    simp only [handleConnection, hl]
    exact hls
  | some session =>
    cases hfi : findIndexMember (fun m => m.userId == sock.userId)
        session.members with
    | some i =>
      by_cases hcode : code = sock.sessionCode
      · subst hcode
        rw [hls] at hl
        injection hl with hses
        subst hses
        refine ⟨{ s with
                    cleanupTimer := none,
                    members := setSocketAt s.members i sock.socketId },
          ?_, rfl, rfl, Or.inr rfl⟩
        simp only [handleConnection, hls, hfi]
        simp only [Registry.lookupS]
        rw [lookupSession_setSession_self]
      · refine ⟨s, ?_, rfl, rfl, Or.inl rfl⟩
        simp only [handleConnection, hl, hfi]
        simp only [Registry.lookupS]
        rw [lookupSession_setSession_ne _ _ _ _ hcode]
        exact hls
    | none =>
      by_cases hcode : code = sock.sessionCode
      · subst hcode
        rw [hls] at hl
        injection hl with hses
        subst hses
        refine ⟨{ s with
                    cleanupTimer := none,
                    members := s.members ++
                      [⟨sock.userId, sock.username, sock.socketId, t, sock.isHost⟩] },
          ?_, rfl, rfl, Or.inr rfl⟩
        simp only [handleConnection, hls, hfi]
        simp only [Registry.lookupS]
        rw [lookupSession_setSession_self]
      · refine ⟨s, ?_, rfl, rfl, Or.inl rfl⟩
        simp only [handleConnection, hl, hfi]
        simp only [Registry.lookupS]
        rw [lookupSession_setSession_ne _ _ _ _ hcode]
        exact hls

/-- A fire anywhere in the registry strictly before the expiry of our
    session's timer (or with our timer already cancelled) leaves our
    session untouched. -/
lemma fire_preserves (codeF code : String) (t : Nat) (reg : Registry)
    (s : Session) (e : Nat) (hls : reg.lookupS code = some s)
    (htm : s.cleanupTimer = some e ∨ s.cleanupTimer = none) (ht : t < e) :
    (graceFire codeF t reg).lookupS code = some s := by
  cases hlf : reg.lookupS codeF with
  | none =>
    simp only [graceFire, hlf]
    exact hls
  | some sf =>
    cases htf : sf.cleanupTimer with
    | none =>
      simp only [graceFire, hlf, htf]
      exact hls
    | some ef =>
      simp only [graceFire, hlf, htf]
      by_cases hexp : ef ≤ t
      · by_cases hlen : sf.members.length = 0
        · rw [if_pos hexp, if_pos hlen]
          by_cases hcode : code = codeF
          · subst hcode
            rw [hls] at hlf
            injection hlf with hses
            subst hses
            rcases htm with htm2 | htm2
            · rw [htf] at htm2
              injection htm2 with hee
              omega
            · rw [htf] at htm2
              exact Option.noConfusion htm2
          · simp only [Registry.lookupS]
            rw [lookupSession_eraseSession_ne _ _ _ hcode]
            exact hls
        · rw [if_pos hexp, if_neg hlen]
          exact hls
      · rw [if_neg hexp]
        exact hls

/-- Along any sequence of attaches and strictly-pre-expiry fires, a
    session stays registered with its message history and status intact,
    and its timer is either the original one or cancelled. -/
lemma retention_trace (code : String) (e : Nat) :
    ∀ (evs : List REvent) (reg : Registry) (s : Session),
      (∀ ev ∈ evs, GraceSafe e ev) →
      reg.lookupS code = some s →
      (s.cleanupTimer = some e ∨ s.cleanupTimer = none) →
      ∃ s2, (runTrace evs reg).lookupS code = some s2 ∧
        s2.messages = s.messages ∧ s2.status = s.status ∧
        (s2.cleanupTimer = some e ∨ s2.cleanupTimer = none) := by
  intro evs
  induction evs with
  | nil =>
    intro reg s hsafe hls htm
    exact ⟨s, hls, rfl, rfl, htm⟩
  | cons ev evs ih =>
    intro reg s hsafe hls htm
    have hsafe0 : GraceSafe e ev := hsafe ev (List.mem_cons_self ev evs)
    have hrest : ∀ x ∈ evs, GraceSafe e x :=
      fun x hx => hsafe x (List.mem_cons_of_mem _ hx)
    have hstep : ∃ s1, (regStep ev reg).lookupS code = some s1 ∧
        s1.messages = s.messages ∧ s1.status = s.status ∧
        (s1.cleanupTimer = some e ∨ s1.cleanupTimer = none) := by
      cases ev with
      | connectEv sock t =>
        obtain ⟨s1, h1, h2, h3, h4⟩ := connect_preserves sock t reg code s hls
        refine ⟨s1, h1, h2, h3, ?_⟩
        rcases h4 with h4 | h4
        · rw [h4]
          exact htm
        · exact Or.inr h4
      | disconnectEv sock t => exact hsafe0.elim
      | fireEv codeF t =>
        have ht : t < e := hsafe0
        exact ⟨s, fire_preserves codeF code t reg s e hls htm ht, rfl, rfl, htm⟩
    obtain ⟨s1, h1, h2, h3, h4⟩ := hstep
    obtain ⟨s2, g1, g2, g3, g4⟩ := ih (regStep ev reg) s1 hrest h1 h4
    refine ⟨s2, g1, ?_, ?_, g4⟩
    · rw [g2, h2]
    · rw [g3, h3]

/-- C4: for a registered session whose grace timer is armed with expiry e
    (and whose registry map has no duplicate codes): a fire strictly
    before e changes nothing; a fire never deletes a session whose member
    list is non-empty (the race re-check); a fire at or after e with the
    member list still empty deletes the session; a disconnect that removes
    the last member arms the timer for the grace period without deleting
    the session; once a connection re-attaches under the session's code a
    later fire at any time is a no-op; and along any sequence of attaches
    and pre-expiry fires the session keeps its message history and status. -/
theorem grace_cleanup (reg : Registry) (code : String) (s : Session) (e : Nat)
    (hnd : (reg.sessions.map Prod.fst).Nodup)
    (hls : reg.lookupS code = some s) (htm : s.cleanupTimer = some e) :
    (∀ t, t < e → graceFire code t reg = reg) ∧
    (∀ (reg2 : Registry) (code2 : String) (t : Nat) (s2 : Session),
      reg2.lookupS code2 = some s2 → s2.members ≠ [] →
      graceFire code2 t reg2 = reg2) ∧
    (∀ t, e ≤ t → s.members = [] →
      (graceFire code t reg).lookupS code = none) ∧
    (∀ (sock : SockInfo) (t : Nat) (reg3 : Registry) (s3 : Session) (m : Member),
      reg3.lookupS sock.sessionCode = some s3 → s3.members = [m] →
      (m.socketId == sock.socketId) = true →
      ∃ s4, (handleDisconnect sock t reg3).1.lookupS sock.sessionCode = some s4 ∧
        s4.members = [] ∧
        s4.cleanupTimer = some (t + SESSION_CLEANUP_GRACE_PERIOD)) ∧
    (∀ (sock : SockInfo) (t : Nat), sock.sessionCode = code →
      ∀ t2, graceFire code t2 (handleConnection sock t reg).1 =
        (handleConnection sock t reg).1) ∧
    (∀ evs : List REvent, (∀ ev ∈ evs, GraceSafe e ev) →
      ∃ s2, (runTrace evs reg).lookupS code = some s2 ∧
        s2.messages = s.messages ∧ s2.status = s.status) := by
  refine ⟨?_, ?_, ?_, ?_, ?_, ?_⟩
  · intro t ht
    simp only [graceFire, hls, htm]
    rw [if_neg (by omega)]
  · intro reg2 code2 t s2 hlk2 hmem
    cases htm2 : s2.cleanupTimer with
    | none => simp [graceFire, hlk2, htm2]
    | some e2 =>
      have hlen : ¬(s2.members.length = 0) := by
        simpa [List.length_eq_zero] using hmem
      simp [graceFire, hlk2, htm2, hlen]
  · intro t hexp hempty
    simp only [graceFire, hls, htm]
    rw [if_pos hexp, if_pos (by rw [hempty]; rfl)]
    simp only [Registry.lookupS]
    exact lookupSession_eraseSession_self reg.sessions code hnd
  · intro sock t reg3 s3 m hlk3 hmem3 hsid
    have hfi : findIndexMember (fun x => x.socketId == sock.socketId) s3.members =
        some 0 := by
      rw [hmem3]
      simp [findIndexMember, hsid]
    have hget : memberAt s3.members 0 = m := by
      rw [hmem3]
      rfl
    have herase : eraseAt s3.members 0 = [] := by
      rw [hmem3]
      rfl
    refine ⟨{ s3 with
                members := [],
                status := if (m.isHost && !(s3.status == Status.ended)) = true
                  then Status.hostLeft else s3.status,
                cleanupTimer := some (t + SESSION_CLEANUP_GRACE_PERIOD) },
      ?_, rfl, rfl⟩
    simp only [handleDisconnect, hlk3, hfi, hget, herase]
    simp only [Registry.lookupS]
    rw [lookupSession_setSession_self]
    simp
  · intro sock t hsc t2
    subst hsc
    cases hfi : findIndexMember (fun m => m.userId == sock.userId) s.members with
    | some i =>
      have hlk2 : (handleConnection sock t reg).1.lookupS sock.sessionCode =
          some { s with
                   cleanupTimer := none,
                   members := setSocketAt s.members i sock.socketId } := by
        simp only [handleConnection, hls, hfi]
        simp only [Registry.lookupS]
        rw [lookupSession_setSession_self]
      exact graceFire_of_timer_none _ t2 _ _ hlk2 rfl
    | none =>
      have hlk2 : (handleConnection sock t reg).1.lookupS sock.sessionCode =
          some { s with
                   cleanupTimer := none,
                   members := s.members ++
                     [⟨sock.userId, sock.username, sock.socketId, t, sock.isHost⟩] } := by
        simp only [handleConnection, hls, hfi]
        simp only [Registry.lookupS]
        rw [lookupSession_setSession_self]
      exact graceFire_of_timer_none _ t2 _ _ hlk2 rfl
  · intro evs hsafe
    obtain ⟨s2, h1, h2, h3, _⟩ :=
      retention_trace code e evs reg s hsafe hls (Or.inl htm)
    exact ⟨s2, h1, h2, h3⟩

/-- Sample emptied session with an armed grace timer expiring at 300007,
    still holding one message. -/
def armedSession : Session :=
  ⟨"ABC123", 1, "Alice", [], [⟨7, 1, "Alice", "hi", 5⟩], 0, Status.hostLeft,
    some 300007⟩

/-- Sample registry holding the armed session. -/
def armedReg : Registry := ⟨[("ABC123", armedSession)], []⟩

/-- Witness: on the armed sample registry, a fire before the expiry does
    nothing, and a reconnect followed by a pre-expiry fire keeps the
    session with its one-message history and its status. -/
theorem grace_cleanup_witness :
    graceFire "ABC123" 5 armedReg = armedReg ∧
    ∃ s2, (runTrace [REvent.connectEv sockAliceRe 100,
          REvent.fireEv "ABC123" 300006] armedReg).lookupS "ABC123" = some s2 ∧
      s2.messages = armedSession.messages ∧ s2.status = armedSession.status := by
  have h := grace_cleanup armedReg "ABC123" armedSession 300007 (by decide)
    rfl rfl
  refine ⟨h.1 5 (by decide), h.2.2.2.2.2 [REvent.connectEv sockAliceRe 100,
    REvent.fireEv "ABC123" 300006] ?_⟩
  intro ev hev
  rcases List.mem_cons.mp hev with rfl | hev2
  · exact trivial
  · rcases List.mem_cons.mp hev2 with rfl | hev3
    · show (300006 : Nat) < 300007
      omega
    · cases hev3
